import Mathlib

/-
  Verification development for the booking backend (src/src/index.ts and
  src/server/index.ts): shallow embedding of the recurring-date calculator,
  the availability/capacity resolver, the booking-creation endpoint and the
  two payment-confirmation handlers (Stripe webhook and verify-payment),
  together with theorems settling the specification claims.

  Modelling conventions:
  - Calendar dates are triples (year, month, day) with JS conventions
    (month 0-based, weekday 0 = Sunday).  JS Date timestamp comparison on
    calendar dates coincides with lexicographic order on (year, month, day),
    which is how dates are compared here; SQLite TEXT comparison of ISO
    YYYY-MM-DD strings is the same order.
  - Day-of-week is computed from a days-since-epoch count (Hinnant's civil
    calendar algorithm), matching JS Date.getDay for calendar dates.
  - SQL tables are lists of records; prepared statements become list
    operations; the UNIQUE(preferred_date, preferred_time) constraint makes
    insertion fallible (Except).
  - HTTP handlers are pure functions from a request and database to a
    response, the new database, and the list of emails sent; SMTP
    configuration is a boolean parameter, and a failing email transport is
    not modelled (the source logs and swallows transport errors).
  - Option String models optional / possibly-absent JS string fields
    (absent and empty-string both map to none, matching JS truthiness
    checks in the source).
  - The created_at / updated_at housekeeping timestamps the UPDATE
    statements touch are not part of the model; state equality is over the
    business fields.
-/

/-! ## Calendar primitives -/

def isLeap (y : Int) : Bool :=
  (y % 4 == 0 && y % 100 != 0) || y % 400 == 0

/-- Number of days of a (0-based) month, as produced by
`new Date(year, month + 1, 0).getDate()` in the source. -/
def daysInMonth (y : Int) (m : Nat) : Nat :=
  if m = 1 then (if isLeap y then 29 else 28)
  else if m = 3 ∨ m = 5 ∨ m = 8 ∨ m = 10 then 30
  else 31

/-- Days since 1970-01-01 of the civil date (y, m, d), m 0-based
(Hinnant's civil-from-days algorithm); models the JS Date timestamp. -/
def daysFromCivil (y : Int) (m : Nat) (d : Int) : Int :=
  let yy : Int := if m ≤ 1 then y - 1 else y
  let era : Int := (if 0 ≤ yy then yy else yy - 399) / 400
  let yoe : Int := yy - era * 400
  let mp : Int := if 2 ≤ m then (m : Int) - 2 else (m : Int) + 10
  let doy : Int := (153 * mp + 2) / 5 + d - 1
  let doe : Int := yoe * 365 + yoe / 4 - yoe / 100 + doy
  era * 146097 + doe - 719468

/-- JS `Date.getDay()` for the calendar date (y, m, d): 0 = Sunday. -/
def jsGetDay (y : Int) (m : Nat) (d : Nat) : Nat :=
  ((daysFromCivil y m (d : Int) + 4) % 7).toNat

/-- Weekday residue of a month: `jsGetDay y m d = (monthDow y m + d) % 7`. -/
def monthDow (y : Int) (m : Nat) : Nat :=
  ((daysFromCivil y m 0 + 4) % 7).toNat

/-- First day ≥ `start` of month (y, m) falling on weekday `w`; embeds the
source's `while (date.getDay() !== weekday) date.setDate(date.getDate()+1)`
loop, which (for w < 7) always stops within 7 steps. -/
def firstWeekdayFrom (y : Int) (m : Nat) (start : Nat) (w : Nat) : Nat :=
  match (List.range 7).find? (fun i => jsGetDay y m (start + i) == w) with
  | some i => start + i
  | none => start

/-- Last day ≤ `last` of month (y, m) falling on weekday `w`; embeds the
source's backwards `while (date.getDay() !== weekday)` loop. -/
def lastWeekdayUpTo (y : Int) (m : Nat) (last : Nat) (w : Nat) : Nat :=
  match (List.range 7).find? (fun i => jsGetDay y m (last - i) == w) with
  | some i => last - i
  | none => last

/-- `getNthWeekdayOfMonth` from src/src/index.ts (lines 756-808): weekNumber
0 = all occurrences, 5 = last occurrence, 1-4 = Nth occurrence of `weekday`
in month (y, m); days of month are returned. -/
def getNthWeekdayOfMonth (y : Int) (m : Nat) (weekNumber : Nat) (weekday : Nat) :
    List Nat :=
  if weekNumber = 0 then
    let f := firstWeekdayFrom y m 1 weekday
    let len := daysInMonth y m
    if f ≤ len then (List.range ((len - f) / 7 + 1)).map (fun i => f + 7 * i)
    else []
  else if weekNumber = 5 then
    [lastWeekdayUpTo y m (daysInMonth y m) weekday]
  else
    let f := firstWeekdayFrom y m 1 weekday
    let d := f + (weekNumber - 1) * 7
    if d ≤ daysInMonth y m then [d] else []

/-- Specification-side list of days of month (y, m) whose weekday is `w`,
in increasing order. -/
def weekdayOccurrences (y : Int) (m : Nat) (w : Nat) : List Nat :=
  (List.range' 1 (daysInMonth y m)).filter (fun d => jsGetDay y m d == w)

/-! Generic residue versions of the calculator: `jsGetDay y m d` equals
`(monthDow y m + d) % 7`, so every function above is an instance of a
function of the month residue `r = monthDow y m` and length
`len = daysInMonth y m`.  These enable finite case analysis. -/

def dowR (r d : Nat) : Nat := (r + d) % 7

def firstWeekdayFromR (r start w : Nat) : Nat :=
  match (List.range 7).find? (fun i => dowR r (start + i) == w) with
  | some i => start + i
  | none => start

def lastWeekdayUpToR (r last w : Nat) : Nat :=
  match (List.range 7).find? (fun i => dowR r (last - i) == w) with
  | some i => last - i
  | none => last

def getNthWeekdayR (r len weekNumber w : Nat) : List Nat :=
  if weekNumber = 0 then
    let f := firstWeekdayFromR r 1 w
    if f ≤ len then (List.range ((len - f) / 7 + 1)).map (fun i => f + 7 * i)
    else []
  else if weekNumber = 5 then
    [lastWeekdayUpToR r len w]
  else
    let f := firstWeekdayFromR r 1 w
    let d := f + (weekNumber - 1) * 7
    if d ≤ len then [d] else []

def weekdayOccurrencesR (r len w : Nat) : List Nat :=
  (List.range' 1 len).filter (fun d => dowR r d == w)

/-! ## Calendar dates and ordering

A `CalDate` is a calendar date in JS conventions (month 0-based).  JS Date
timestamp comparison on calendar dates and SQLite TEXT comparison of ISO
YYYY-MM-DD strings both coincide with lexicographic order on
(year, month, day), used here. -/

structure CalDate where
  year : Int
  month : Fin 12
  day : Nat
deriving DecidableEq

def CalDate.le (a b : CalDate) : Prop :=
  a.year < b.year ∨ (a.year = b.year ∧
    ((a.month : Nat) < (b.month : Nat) ∨ ((a.month : Nat) = (b.month : Nat) ∧ a.day ≤ b.day)))

def CalDate.lt (a b : CalDate) : Prop :=
  a.year < b.year ∨ (a.year = b.year ∧
    ((a.month : Nat) < (b.month : Nat) ∨ ((a.month : Nat) = (b.month : Nat) ∧ a.day < b.day)))

instance (a b : CalDate) : Decidable (CalDate.le a b) := by
  unfold CalDate.le
  infer_instance

instance (a b : CalDate) : Decidable (CalDate.lt a b) := by
  unfold CalDate.lt
  infer_instance

/-- Linearised month count, used to order loop iterations of the
available-dates month walk. -/
def monthIndex (y : Int) (m : Fin 12) : Int := 12 * y + (m : Nat)

/-- JS `setMonth` normalisation: advance (y, m) by k months. -/
def addMonths (y : Int) (m : Fin 12) (k : Nat) : Int × Fin 12 :=
  (y + (((m : Nat) + k) / 12 : Nat), ⟨((m : Nat) + k) % 12, Nat.mod_lt _ (by omega)⟩)

/-- One iteration of `current.setMonth(current.getMonth() + 1);
current.setDate(1)` from the available-dates handler: when the day of
month overflows the next month (JS setMonth normalisation), the date
lands one month further, so `setDate(1)` yields the first of the month
after next and a month is skipped. -/
def nextCurrent (c : CalDate) : CalDate :=
  let p := addMonths c.year c.month 1
  if daysInMonth p.1 (p.2 : Nat) < c.day then
    let q := addMonths p.1 p.2 1
    ⟨q.1, q.2, 1⟩
  else
    ⟨p.1, p.2, 1⟩

/-- Iterations of the available-dates month loop `while (current <= end)`,
bounded by an explicit iteration count.  Each iteration advances
`monthIndex` by at least one, so `monthsFuel` iterations always reach the
loop exit; `monthsVisited_unfold` below recovers the unbounded loop
equation. -/
def monthsVisitedFuel : Nat → CalDate → CalDate → List (Int × Fin 12)
  | 0, _, _ => []
  | Nat.succ n, c, e =>
    if CalDate.le c e then (c.year, c.month) :: monthsVisitedFuel n (nextCurrent c) e
    else []

def monthsFuel (c e : CalDate) : Nat :=
  (monthIndex e.year e.month + 1 - monthIndex c.year c.month).toNat

/-- The (year, month) pairs visited by the available-dates month loop. -/
def monthsVisited (c e : CalDate) : List (Int × Fin 12) :=
  monthsVisitedFuel (monthsFuel c e) c e

/-! ## Data model

Rows of the SQLite tables used by the embedded endpoints (schema in
src/server/index.ts, initializeDatabase).  Statuses and payment statuses
are the TEXT values the source reads and writes. -/

structure Booking where
  id : Nat
  name : String
  email : String
  phone : String
  city : String
  serviceType : String
  preferredDate : CalDate
  preferredTime : String
  status : String
  paymentStatus : String
  stripeSessionId : Option String
  stripePaymentIntentId : Option String
deriving DecidableEq

structure Quote where
  id : Nat
  paymentStatus : String
  stripeSessionId : Option String
  stripePaymentIntentId : Option String
deriving DecidableEq

structure Service where
  serviceId : String
  name : String
  maxBookingsPerDay : Option Int
  passage1Week : Option Nat
  passage1Day : Option Nat
  passage2Week : Option Nat
  passage2Day : Option Nat
deriving DecidableEq

structure ServiceCity where
  cityName : String
  enabled : Bool
  cutoffDate : Option CalDate
  passage1Week : Option Nat
  passage1Day : Option Nat
  passage2Week : Option Nat
  passage2Day : Option Nat
deriving DecidableEq

/-- Rows of the config table consumed by the embedded handlers.
`maxBookingsPerDayValue` is the integer value of key max_bookings_per_day
(none = key absent; the source then falls back to parseInt("5")); the two
string fields are the raw values of time_selection_enabled and
test_mode_enabled (the source tests them against "false" and "true"). -/
structure Config where
  maxBookingsPerDayValue : Option Int
  timeSelectionValue : Option String
  testModeValue : Option String
deriving DecidableEq

structure DB where
  bookings : List Booking
  quotes : List Quote
  services : List Service
  cities : List ServiceCity
  config : Config
  nextId : Nat
deriving DecidableEq

/-! ## Prepared statements (dbQueries in src/server/index.ts) -/

def getBookingById (db : DB) (id : Nat) : Option Booking :=
  db.bookings.find? (fun b => b.id == id)

def getQuoteById (db : DB) (id : Nat) : Option Quote :=
  db.quotes.find? (fun q => q.id == id)

def getServiceByServiceId (db : DB) (sid : String) : Option Service :=
  db.services.find? (fun s => s.serviceId == sid)

/-- `SELECT * FROM service_cities WHERE city_name = ? AND enabled = 1`. -/
def checkServiceCity (db : DB) (name : String) : Option ServiceCity :=
  db.cities.find? (fun c => c.cityName == name && c.enabled)

/-- Row predicate of the paid-booking counting queries:
`status != 'cancelled' AND payment_status = 'paid'`. -/
def isPaidActive (b : Booking) : Bool :=
  !(b.status == "cancelled") && b.paymentStatus == "paid"

def countPaidBookingsByDate (db : DB) (d : CalDate) : Nat :=
  (db.bookings.filter (fun b => b.preferredDate == d && isPaidActive b)).length

def countPaidBookingsByDateAndService (db : DB) (d : CalDate) (sid : String) : Nat :=
  (db.bookings.filter
    (fun b => b.preferredDate == d && b.serviceType == sid && isPaidActive b)).length

/-- Append-if-absent, the push pattern `if (!list.includes(x)) list.push(x)`
and the GROUP BY key collection. -/
def dedupAppend [DecidableEq α] (acc : List α) (x : α) : List α :=
  if x ∈ acc then acc else acc ++ [x]

def distinctList [DecidableEq α] (l : List α) : List α :=
  l.foldl dedupAppend []

/-- `SELECT preferred_date, COUNT(*) ... WHERE preferred_date >= ? AND
preferred_date <= ? AND status != 'cancelled' AND payment_status = 'paid'
GROUP BY preferred_date`. -/
def getPaidBookingsByDateRange (db : DB) (s e : CalDate) : List (CalDate × Nat) :=
  let rows := db.bookings.filter (fun b =>
    decide (CalDate.le s b.preferredDate) && decide (CalDate.le b.preferredDate e) &&
    isPaidActive b)
  (distinctList (rows.map (fun b => b.preferredDate))).map
    (fun d => (d, (rows.filter (fun b => b.preferredDate == d)).length))

/-- The service-scoped variant of the previous query. -/
def getPaidBookingsByDateRangeAndService (db : DB) (s e : CalDate) (sid : String) :
    List (CalDate × Nat) :=
  let rows := db.bookings.filter (fun b =>
    decide (CalDate.le s b.preferredDate) && decide (CalDate.le b.preferredDate e) &&
    b.serviceType == sid && isPaidActive b)
  (distinctList (rows.map (fun b => b.preferredDate))).map
    (fun d => (d, (rows.filter (fun b => b.preferredDate == d)).length))

/-- `SELECT * FROM bookings WHERE preferred_date = ? AND preferred_time = ?
AND status != 'cancelled'`. -/
def checkBookingConflict (db : DB) (d : CalDate) (t : String) : Option Booking :=
  db.bookings.find? (fun b =>
    b.preferredDate == d && b.preferredTime == t && !(b.status == "cancelled"))

/-- Errors a call of the insertBooking prepared statement can raise:
`bindRangeError` is the better-sqlite3 RangeError thrown before SQLite
runs when the call site binds a different number of values than the
statement has placeholders — it carries no SQLite error code;
`uniqueViolation` is SQLITE_CONSTRAINT_UNIQUE from
UNIQUE(preferred_date, preferred_time), which holds over all rows,
cancelled ones included. -/
inductive SqlError where
  | bindRangeError
  | uniqueViolation
deriving DecidableEq

/-- Number of placeholders of the insertBooking prepared statement
(src/server/index.ts 1242-1245): 20 columns, subscription_contract_consent
and subscription_contract_date included. -/
def insertBookingParams : Nat := 20

/-- Running the insertBooking statement with `bound` bind values: a bind
count different from the 20 placeholders raises RangeError before SQLite
executes; otherwise the UNIQUE(preferred_date, preferred_time) constraint
(status-blind) may reject, else the row is appended. -/
def runInsertBooking (bound : Nat) (db : DB) (b : Booking) : Except SqlError DB :=
  if bound ≠ insertBookingParams then .error .bindRangeError
  else if db.bookings.any (fun x =>
      x.preferredDate == b.preferredDate && x.preferredTime == b.preferredTime) then
    .error .uniqueViolation
  else
    .ok { db with bookings := db.bookings ++ [b], nextId := db.nextId + 1 }

def updateBookingStatus (db : DB) (st : String) (id : Nat) : DB :=
  let upd := fun b => if b.id = id then { b with status := st } else b
  { db with bookings := db.bookings.map upd }

def updateBookingPayment (db : DB) (pi : Option String) (sid : String)
    (ps : String) (id : Nat) : DB :=
  let upd := fun b =>
    if b.id = id then
      { b with stripePaymentIntentId := pi, stripeSessionId := some sid,
               paymentStatus := ps }
    else b
  { db with bookings := db.bookings.map upd }

def updateQuotePayment (db : DB) (pi : Option String) (sid : String)
    (ps : String) (id : Nat) : DB :=
  let upd := fun q =>
    if q.id = id then
      { q with stripePaymentIntentId := pi, stripeSessionId := some sid,
               paymentStatus := ps }
    else q
  { db with quotes := db.quotes.map upd }

/-! ## Effective capacity and scope

The same duplicated block appears in the webhook (src/src/index.ts 208-232),
verify-payment (500-524), POST /api/booking (1290-1316) and available-dates
(826-849) handlers: the service limit wins when the service row defines
max_bookings_per_day, otherwise the global config value (default 5) applies
and counting is not scoped to the service. -/

def resolveCapacity (db : DB) (serviceType : Option String) : Int × Bool :=
  let dflt : Int := db.config.maxBookingsPerDayValue.getD 5
  match serviceType with
  | some sid =>
    match getServiceByServiceId db sid with
    | some svc =>
      match svc.maxBookingsPerDay with
      | some mx => (mx, true)
      | none => (dflt, false)
    | none => (dflt, false)
  | none => (dflt, false)

def countPaidScoped (db : DB) (d : CalDate) (serviceType : Option String)
    (useServiceLimit : Bool) : Nat :=
  if useServiceLimit then
    countPaidBookingsByDateAndService db d (serviceType.getD "")
  else countPaidBookingsByDate db d

/-! ## Passage configuration and allowed dates -/

structure PassageCfg where
  p1w : Option Nat
  p1d : Option Nat
  p2w : Option Nat
  p2d : Option Nat
deriving DecidableEq

/-- Passage-configuration resolution of the available-dates handler
(src/src/index.ts 871-941): the service config wins when the service sets
passage1_week or passage2_week; otherwise the enabled city row supplies its
config (even when all its passage fields are null); otherwise none. -/
def resolvePassage (db : DB) (city serviceType : Option String) : Option PassageCfg :=
  let fromService :=
    match serviceType with
    | some sid =>
      match getServiceByServiceId db sid with
      | some svc =>
        if svc.passage1Week.isSome || svc.passage2Week.isSome then
          some ⟨svc.passage1Week, svc.passage1Day, svc.passage2Week, svc.passage2Day⟩
        else none
      | none => none
    | none => none
  match fromService with
  | some cfg => some cfg
  | none =>
    match city with
    | some cname =>
      match checkServiceCity db cname with
      | some c =>
        if c.enabled then
          some ⟨c.passage1Week, c.passage1Day, c.passage2Week, c.passage2Day⟩
        else none
      | none => none
    | none => none

/-- Dates of a passage (week, day) pair inside month ym; nothing when either
field is null (`passageConfig.passageN_week !== null && ..._day !== null`). -/
def passageDatesForMonth (w d : Option Nat) (ym : Int × Fin 12) : List CalDate :=
  match w, d with
  | some wk, some wd =>
    (getNthWeekdayOfMonth ym.1 (ym.2 : Nat) wk wd).map (fun day => ⟨ym.1, ym.2, day⟩)
  | _, _ => []

/-- Passage 1 dates followed by passage 2 dates of one month, the push
order of the source's month loop. -/
def monthPassageDates (cfg : PassageCfg) (ym : Int × Fin 12) : List CalDate :=
  passageDatesForMonth cfg.p1w cfg.p1d ym ++ passageDatesForMonth cfg.p2w cfg.p2d ym

/-- All passage dates pushed by the month loop, in push order: for each
visited month, passage 1 dates then passage 2 dates, each filtered by
`date >= start && date <= end`. -/
def allowedCandidates (cfg : PassageCfg) (s e : CalDate) : List CalDate :=
  (monthsVisited s e).flatMap (fun ym =>
    (monthPassageDates cfg ym).filter
      (fun dd => decide (CalDate.le s dd) && decide (CalDate.le dd e)))

/-- The allowedDates accumulator: candidates pushed in order, skipping
dates already present (`!allowedDates.includes(dateStr)`). -/
def computeAllowed (cfg : PassageCfg) (s e : CalDate) : List CalDate :=
  (allowedCandidates cfg s e).foldl dedupAppend []

/-! ## GET /api/bookings/available-dates (src/src/index.ts 811-1022) -/

structure AvailResp where
  status : Nat
  ok : Bool
  fullDates : List CalDate
  allowedDates : Option (List CalDate)
deriving DecidableEq

def availableDates (db : DB) (startDate endDate : Option CalDate)
    (city serviceType : Option String) : AvailResp :=
  match startDate, endDate with
  | some s, some e =>
    let rc := resolveCapacity db serviceType
    let groups :=
      if rc.2 then getPaidBookingsByDateRangeAndService db s e (serviceType.getD "")
      else getPaidBookingsByDateRange db s e
    let fullDates := (groups.filter (fun p => decide ((p.2 : Int) ≥ rc.1))).map
      (fun p => p.1)
    let allowed :=
      match resolvePassage db city serviceType with
      | some cfg => computeAllowed cfg s e
      | none => []
    { status := 200, ok := true, fullDates := fullDates,
      allowedDates := if allowed.isEmpty then none else some allowed }
  | _, _ => { status := 400, ok := false, fullDates := [], allowedDates := none }

/-! ## POST /api/booking (src/src/index.ts 1207-1417) -/

structure BookingReq where
  name : Option String
  email : Option String
  phone : Option String
  city : Option String
  serviceType : Option String
  preferredDate : Option CalDate
  preferredTime : Option String
deriving DecidableEq

/-- Outcomes of POST /api/booking; `cityClosed` carries the cutoff date the
user-facing message names, `uniqueViolation` is the
SQLITE_CONSTRAINT_UNIQUE catch path. -/
inductive BookingResp where
  | missingFields
  | cityNotServed
  | cityClosed (cutoff : CalDate)
  | dateFull
  | slotConflict
  | uniqueViolation
  | insertError
  | created (bookingId : Nat)
deriving DecidableEq

def BookingResp.status : BookingResp → Nat
  | .missingFields => 400
  | .cityNotServed => 400
  | .cityClosed _ => 400
  | .dateFull => 409
  | .slotConflict => 409
  | .uniqueViolation => 409
  | .insertError => 500
  | .created _ => 200

/-- Insert step of POST /api/booking (src/src/index.ts 1339-1400): the
handler prepares the row with the fixed default time "09:00" when none is
given and payment_status unpaid, but its call binds only 18 values to the
20-parameter insertBooking statement (the two subscription_contract values
are missing), so the driver raises a bind RangeError on every attempt; the
catch maps dbErr.code === "SQLITE_CONSTRAINT_UNIQUE" to 409 and any other
error — the code-less RangeError included — to the generic 500, making the
created and 409-unique outcomes unreachable from this endpoint. -/
def postBookingInsert (db : DB) (nm em ph ct st : String) (pd : CalDate)
    (tOpt : Option String) : BookingResp × DB :=
  let newId := db.nextId
  let row : Booking :=
    { id := newId, name := nm, email := em, phone := ph, city := ct,
      serviceType := st, preferredDate := pd,
      preferredTime := tOpt.getD "09:00",
      status := "pending", paymentStatus := "unpaid",
      stripeSessionId := none, stripePaymentIntentId := none }
  match runInsertBooking 18 db row with
  | .error .uniqueViolation => (.uniqueViolation, db)
  | .error .bindRangeError => (.insertError, db)
  | .ok db1 => (.created newId, updateBookingStatus db1 "awaiting_payment" newId)

/-- Capacity check then conflict check then insert (the block inside the
try of the handler). -/
def postBookingCapacity (db : DB) (req : BookingReq) (nm em ph ct st : String)
    (pd : CalDate) : BookingResp × DB :=
  let rc := resolveCapacity db (some st)
  let cnt := countPaidScoped db pd (some st) rc.2
  if (cnt : Int) ≥ rc.1 then (.dateFull, db)
  else
    match req.preferredTime with
    | some t =>
      match checkBookingConflict db pd t with
      | some _ => (.slotConflict, db)
      | none => postBookingInsert db nm em ph ct st pd (some t)
    | none => postBookingInsert db nm em ph ct st pd none

/-- Required-fields validation: name, email, phone, city, serviceType,
preferredDate always; preferredTime only when time selection is enabled
(config time_selection_enabled !== "false"). -/
def postBookingFields (db : DB) (req : BookingReq) : BookingResp × DB :=
  let timeSel := !(db.config.timeSelectionValue == some "false")
  match req.name, req.email, req.phone, req.city, req.serviceType, req.preferredDate with
  | some nm, some em, some ph, some ct, some st, some pd =>
    if timeSel && req.preferredTime == none then (.missingFields, db)
    else postBookingCapacity db req nm em ph ct st pd
  | _, _, _, _, _, _ => (.missingFields, db)

/-- POST /api/booking: city allow-list and cutoff-date guard, then field
validation, capacity, conflict and insertion. -/
def postBooking (db : DB) (req : BookingReq) : BookingResp × DB :=
  match checkServiceCity db (req.city.getD "") with
  | none => (.cityNotServed, db)
  | some cityRow =>
    match cityRow.cutoffDate, req.preferredDate with
    | some cd, some pd =>
      if CalDate.lt cd pd then (.cityClosed cd, db)
      else postBookingFields db req
    | _, _ => postBookingFields db req

/-! ## Payment confirmation: shared event model -/

/-- Metadata of a Stripe checkout session as read by the two confirmation
handlers; `bookingId` present = the flow over an existing booking row,
`bookingName`/`bookingPreferredDate` present = the flow creating the
booking after payment. -/
structure SessionMetadata where
  type : Option String
  bookingId : Option Nat
  bookingName : Option String
  bookingEmail : Option String
  bookingPhone : Option String
  bookingCity : Option String
  bookingServiceType : Option String
  bookingPreferredDate : Option CalDate
  bookingPreferredTime : Option String
  quoteId : Option Nat
deriving DecidableEq

structure StripeSession where
  id : String
  paymentIntent : Option String
  livemode : Bool
  paymentStatus : Option String
  sessionStatus : Option String
  metadata : SessionMetadata
deriving DecidableEq

inductive StripeEvent where
  | checkoutSessionCompleted (session : StripeSession)
  | otherEvent
deriving DecidableEq

/-- Outbound notification e-mails to the operator mailbox (smtpTo):
the post-payment confirmation mail, and the capacity-exceeded alert
announcing the out-of-band refund. -/
inductive Email where
  | bookingConfirmed (replyTo : String) (bookingId : Nat)
  | capacityAlert (replyTo : String) (name : String) (date : CalDate)
deriving DecidableEq

/-! ## POST /api/stripe/webhook (src/src/index.ts 124-419) -/

structure WebhookResp where
  status : Nat
  received : Bool
  error : Option String
deriving DecidableEq

/-- Final block of the booking branch: confirmation e-mail (when SMTP is
configured) built from the booking row, then `res.json({received: true})`. -/
def webhookFinish (smtp : Bool) (db : DB) (bk : Booking) :
    WebhookResp × DB × List Email :=
  let emails := if smtp then [Email.bookingConfirmed bk.email bk.id] else []
  ({ status := 200, received := true, error := none }, db, emails)

/-- Existing-booking flow (metadata.bookingId): mark paid and pending,
no capacity re-check; the e-mail is built from the row fetched before the
updates. -/
def webhookExisting (smtp : Bool) (db : DB) (s : StripeSession) (bid : Nat) :
    WebhookResp × DB × List Email :=
  match getBookingById db bid with
  | none => ({ status := 200, received := true, error := some "booking_not_found" }, db, [])
  | some bk =>
    let db1 := updateBookingPayment db s.paymentIntent s.id "paid" bid
    let db2 := updateBookingStatus db1 "pending" bid
    webhookFinish smtp db2 bk

/-- Creation flow insert of the webhook (all 20 statement parameters are
bound at this call site): row paid, then status pending and payment fields
written, then the confirmation e-mail block. -/
def webhookCreate (smtp : Bool) (db : DB) (s : StripeSession) (nm : String)
    (pd : CalDate) : WebhookResp × DB × List Email :=
  let newId := db.nextId
  let row : Booking :=
    { id := newId, name := nm, email := s.metadata.bookingEmail.getD "",
      phone := s.metadata.bookingPhone.getD "",
      city := s.metadata.bookingCity.getD "",
      serviceType := s.metadata.bookingServiceType.getD "",
      preferredDate := pd,
      preferredTime := s.metadata.bookingPreferredTime.getD "09:00",
      status := "pending", paymentStatus := "paid",
      stripeSessionId := some s.id, stripePaymentIntentId := none }
  match runInsertBooking 20 db row with
  | .error _ => ({ status := 200, received := true, error := some "insert_error" }, db, [])
  | .ok db1 =>
    let db2 := updateBookingStatus db1 "pending" newId
    let db3 := updateBookingPayment db2 s.paymentIntent s.id "paid" newId
    match getBookingById db3 newId with
    | some bk => webhookFinish smtp db3 bk
    | none => ({ status := 200, received := true, error := none }, db3, [])

/-- Booking branch of the webhook: existing-booking flow, or creation flow
with capacity re-check (refund-alert e-mail on full date) and (date, time)
conflict check. -/
def webhookBooking (smtp : Bool) (db : DB) (s : StripeSession) :
    WebhookResp × DB × List Email :=
  match s.metadata.bookingId with
  | some bid => webhookExisting smtp db s bid
  | none =>
    match s.metadata.bookingName, s.metadata.bookingPreferredDate with
    | some nm, some pd =>
      let rc := resolveCapacity db s.metadata.bookingServiceType
      let cnt := countPaidScoped db pd s.metadata.bookingServiceType rc.2
      if (cnt : Int) ≥ rc.1 then
        let emails :=
          if smtp then [Email.capacityAlert (s.metadata.bookingEmail.getD "") nm pd]
          else []
        ({ status := 200, received := true, error := some "date_full" }, db, emails)
      else
        match s.metadata.bookingPreferredTime with
        | some t =>
          match checkBookingConflict db pd t with
          | some _ => ({ status := 200, received := true, error := some "conflict" }, db, [])
          | none => webhookCreate smtp db s nm pd
        | none => webhookCreate smtp db s nm pd
    | _, _ =>
      ({ status := 200, received := true, error := some "metadata_incomplete" }, db, [])

def webhookQuote (db : DB) (s : StripeSession) (qid : Nat) :
    WebhookResp × DB × List Email :=
  match getQuoteById db qid with
  | some _ =>
    ({ status := 200, received := true, error := none },
      updateQuotePayment db s.paymentIntent s.id "paid" qid, [])
  | none => ({ status := 200, received := true, error := none }, db, [])

/-- Webhook body after signature verification: test-mode gate, then the
booking / quote branches; every path acknowledges with HTTP 200. -/
def stripeWebhook (smtp : Bool) (db : DB) (ev : StripeEvent) :
    WebhookResp × DB × List Email :=
  match ev with
  | .otherEvent => ({ status := 200, received := true, error := none }, db, [])
  | .checkoutSessionCompleted s =>
    let testModeEnabled := db.config.testModeValue == some "true"
    if !s.livemode && !testModeEnabled then
      ({ status := 200, received := true, error := some "test_mode_disabled" }, db, [])
    else if s.metadata.type == some "booking" then webhookBooking smtp db s
    else if s.metadata.type == some "quote" then
      match s.metadata.quoteId with
      | some qid => webhookQuote db s qid
      | none => ({ status := 200, received := true, error := none }, db, [])
    else ({ status := 200, received := true, error := none }, db, [])

/-- Full webhook endpoint: 503 when Stripe is not configured, 400 on
signature verification failure, otherwise the handler body. -/
def stripeWebhookEndpoint (stripeConfigured signatureValid smtp : Bool)
    (db : DB) (ev : StripeEvent) : WebhookResp × DB × List Email :=
  if !stripeConfigured then
    ({ status := 503, received := false, error := some "stripe_not_configured" }, db, [])
  else if !signatureValid then
    ({ status := 400, received := false, error := some "signature" }, db, [])
  else stripeWebhook smtp db ev

/-! ## POST /api/stripe/verify-payment (src/src/index.ts 432-686) -/

structure VerifyResp where
  status : Nat
  ok : Bool
  error : Option String
deriving DecidableEq

/-- Common tail of verify-payment: when the booking row is not yet paid,
write the payment, advance awaiting_payment to pending and send the
confirmation e-mail; when already paid, report success with no update and
no e-mail. -/
def verifyFinish (smtp : Bool) (db : DB) (s : StripeSession) (bk : Booking)
    (bid : Nat) : VerifyResp × DB × List Email :=
  if bk.paymentStatus == "paid" then
    ({ status := 200, ok := true, error := none }, db, [])
  else
    let db1 := updateBookingPayment db s.paymentIntent s.id "paid" bid
    let db2 :=
      if bk.status == "awaiting_payment" then updateBookingStatus db1 "pending" bid
      else db1
    let emails := if smtp then [Email.bookingConfirmed bk.email bk.id] else []
    ({ status := 200, ok := true, error := none }, db2, emails)

/-- Creation flow of verify-payment (all 20 statement parameters are bound
at this call site): insert the paid booking then run the common tail (whose not-yet-paid branch is skipped, as the row is already
paid: no e-mail is sent from this flow). -/
def verifyCreate (smtp : Bool) (db : DB) (s : StripeSession) (nm : String)
    (pd : CalDate) : VerifyResp × DB × List Email :=
  let newId := db.nextId
  let row : Booking :=
    { id := newId, name := nm, email := s.metadata.bookingEmail.getD "",
      phone := s.metadata.bookingPhone.getD "",
      city := s.metadata.bookingCity.getD "",
      serviceType := s.metadata.bookingServiceType.getD "",
      preferredDate := pd,
      preferredTime := s.metadata.bookingPreferredTime.getD "09:00",
      status := "pending", paymentStatus := "paid",
      stripeSessionId := some s.id, stripePaymentIntentId := none }
  match runInsertBooking 20 db row with
  | .error _ => ({ status := 500, ok := false, error := some "insert_error" }, db, [])
  | .ok db1 =>
    let db2 := updateBookingStatus db1 "pending" newId
    let db3 := updateBookingPayment db2 s.paymentIntent s.id "paid" newId
    match getBookingById db3 newId with
    | some bk => verifyFinish smtp db3 s bk newId
    | none => ({ status := 500, ok := false, error := some "server_error" }, db3, [])

/-- verify-payment body once the session has been retrieved from Stripe:
test-mode gate, paid-session gate, then existing-booking or creation flow
(the latter with the capacity re-check — with no alert e-mail on full
date — and the conflict check). -/
def verifyPayment (smtp : Bool) (db : DB) (s : StripeSession) :
    VerifyResp × DB × List Email :=
  let testModeEnabled := db.config.testModeValue == some "true"
  if !s.livemode && !testModeEnabled then
    ({ status := 200, ok := false, error := some "test_mode_disabled" }, db, [])
  else
    let isPaid := s.paymentStatus == some "paid" || s.sessionStatus == some "complete"
    if !isPaid then
      ({ status := 200, ok := false, error := some "payment_incomplete" }, db, [])
    else
      match s.metadata.bookingId with
      | some bid =>
        match getBookingById db bid with
        | none => ({ status := 404, ok := false, error := some "booking_not_found" }, db, [])
        | some bk => verifyFinish smtp db s bk bid
      | none =>
        match s.metadata.bookingName, s.metadata.bookingPreferredDate with
        | some nm, some pd =>
          let rc := resolveCapacity db s.metadata.bookingServiceType
          let cnt := countPaidScoped db pd s.metadata.bookingServiceType rc.2
          if (cnt : Int) ≥ rc.1 then
            ({ status := 200, ok := false, error := some "date_full" }, db, [])
          else
            match s.metadata.bookingPreferredTime with
            | some t =>
              match checkBookingConflict db pd t with
              | some _ => ({ status := 200, ok := false, error := some "conflict" }, db, [])
              | none => verifyCreate smtp db s nm pd
            | none => verifyCreate smtp db s nm pd
        | _, _ => ({ status := 400, ok := false, error := some "metadata_incomplete" }, db, [])

/-! ## Concrete instances for claims C7 and C8 -/
def cxC7cutoff : CalDate := ⟨2025, 5, 30⟩
def cxC7city : ServiceCity := ⟨"Lyon", false, some cxC7cutoff, none, none, none, none⟩
def cxC7db : DB := ⟨[], [], [], [cxC7city], ⟨none, none, none⟩, 1⟩
def cxC7req : BookingReq :=
  ⟨some "n", some "e", some "p", some "Lyon", some "svc", some ⟨2025, 6, 1⟩, some "10:00"⟩

def wC7city : ServiceCity := ⟨"Lyon", true, some cxC7cutoff, none, none, none, none⟩
def wC7db : DB := ⟨[], [], [], [wC7city], ⟨none, none, none⟩, 1⟩

def cxC8bk : Booking :=
  ⟨1, "a", "a@x", "p", "X", "svc", ⟨2025, 5, 10⟩, "10:00", "pending", "unpaid", none, none⟩
def cxC8city : ServiceCity := ⟨"X", true, none, none, none, none, none⟩
def cxC8db : DB := ⟨[cxC8bk], [], [], [cxC8city], ⟨none, some "false", none⟩, 2⟩
def cxC8req : BookingReq :=
  ⟨some "n", some "e", some "p", some "X", some "svc", some ⟨2025, 5, 10⟩, some "10:00"⟩

/-! ## Concrete instances for claims C1, C2 and C10 -/

def cxC10city : ServiceCity := ⟨"X", true, none, none, none, none, none⟩

def cxC10db : DB := ⟨[], [], [], [cxC10city], ⟨none, some "false", none⟩, 1⟩

def cxC10req : BookingReq :=
  ⟨some "n", some "e", some "p", some "X", some "svc", some ⟨2025, 5, 10⟩, none⟩

def cxC1paid : Booking :=
  ⟨1, "a", "a@x", "p", "X", "svc", ⟨2025, 5, 10⟩, "10:00", "pending", "paid", some "sessA", none⟩

def cxC1await : Booking :=
  ⟨2, "b", "b@x", "p", "X", "svc", ⟨2025, 5, 10⟩, "11:00", "awaiting_payment", "unpaid", none, none⟩

def cxC1db : DB := ⟨[cxC1paid, cxC1await], [], [], [], ⟨some 1, none, none⟩, 3⟩

def cxC1meta : SessionMetadata :=
  ⟨some "booking", some 2, none, none, none, none, some "svc", some ⟨2025, 5, 10⟩, none, none⟩

def cxC1sess : StripeSession := ⟨"sessB", none, true, some "paid", none, cxC1meta⟩

def cxC1metaNew : SessionMetadata :=
  ⟨some "booking", none, some "c", some "c@x", none, none, some "svc", some ⟨2025, 5, 10⟩, none, none⟩

def cxC1sessNew : StripeSession := ⟨"sessC", none, true, some "paid", none, cxC1metaNew⟩

def cxC2bk : Booking :=
  ⟨1, "a", "a@x", "p", "X", "svc", ⟨2025, 5, 10⟩, "10:00", "pending", "paid", some "sessA", none⟩

def cxC2db : DB := ⟨[cxC2bk], [], [], [], ⟨none, none, none⟩, 2⟩

def cxC2meta : SessionMetadata :=
  ⟨some "booking", some 1, none, none, none, none, none, none, none, none⟩

def cxC2sess : StripeSession := ⟨"sessA", none, true, some "paid", none, cxC2meta⟩

/-! ## Concrete instances for claims C3 and C4 -/

def cxC3svc : Service := ⟨"svc", "Svc", some 0, none, none, none, none⟩

def cxC3db : DB := ⟨[], [], [cxC3svc], [], ⟨none, none, none⟩, 1⟩

def cxC4svc : Service := ⟨"svc", "Svc", none, some 1, some 3, none, none⟩

def cxC4db : DB := ⟨[], [], [cxC4svc], [], ⟨none, none, none⟩, 1⟩

def wC4svc : Service := ⟨"svc", "Svc", none, some 3, some 3, none, none⟩

def wC4db : DB := ⟨[], [], [wC4svc], [], ⟨none, none, none⟩, 1⟩

def wC4cfg : PassageCfg := ⟨some 3, some 3, none, none⟩

/-! ## Lemmas: reduction to residues -/

theorem daysFromCivil_affine (y : Int) (m : Nat) (d : Int) :
    daysFromCivil y m d = daysFromCivil y m 0 + d := by
  simp only [daysFromCivil]
  ring

theorem jsGetDay_eq_dowR (y : Int) (m : Nat) (d : Nat) :
    jsGetDay y m d = dowR (monthDow y m) d := by
  have h := daysFromCivil_affine y m (d : Int)
  simp only [jsGetDay, dowR, monthDow, h]
  omega

theorem monthDow_lt (y : Int) (m : Nat) : monthDow y m < 7 := by
  simp only [monthDow]
  omega

theorem daysInMonth_bounds (y : Int) (m : Nat) :
    28 ≤ daysInMonth y m ∧ daysInMonth y m ≤ 31 := by
  simp only [daysInMonth]
  split
  · split <;> omega
  · split <;> omega

theorem firstWeekdayFrom_eq (y : Int) (m : Nat) (start w : Nat) :
    firstWeekdayFrom y m start w = firstWeekdayFromR (monthDow y m) start w := by
  simp only [firstWeekdayFrom, firstWeekdayFromR, jsGetDay_eq_dowR]

theorem lastWeekdayUpTo_eq (y : Int) (m : Nat) (last w : Nat) :
    lastWeekdayUpTo y m last w = lastWeekdayUpToR (monthDow y m) last w := by
  simp only [lastWeekdayUpTo, lastWeekdayUpToR, jsGetDay_eq_dowR]

theorem getNthWeekdayOfMonth_eq (y : Int) (m : Nat) (n w : Nat) :
    getNthWeekdayOfMonth y m n w =
      getNthWeekdayR (monthDow y m) (daysInMonth y m) n w := by
  simp only [getNthWeekdayOfMonth, getNthWeekdayR, firstWeekdayFrom_eq,
    lastWeekdayUpTo_eq]

theorem weekdayOccurrences_eq (y : Int) (m : Nat) (w : Nat) :
    weekdayOccurrences y m w =
      weekdayOccurrencesR (monthDow y m) (daysInMonth y m) w := by
  simp only [weekdayOccurrences, weekdayOccurrencesR, jsGetDay_eq_dowR]

set_option synthInstance.maxSize 1024 in
theorem getNthWeekdayR_core :
    ∀ r < 7, ∀ w < 7, ∀ k < 4, ∀ j < 4,
      getNthWeekdayR r (28 + k) (j + 1) w =
        ((weekdayOccurrencesR r (28 + k) w).drop j).take 1 := by
  decide

set_option synthInstance.maxSize 1024 in
theorem lastWeekdayR_core :
    ∀ r < 7, ∀ w < 7, ∀ k < 4,
      (dowR r (lastWeekdayUpToR r (28 + k) w) = w ∧
       1 ≤ lastWeekdayUpToR r (28 + k) w ∧
       lastWeekdayUpToR r (28 + k) w ≤ 28 + k ∧
       ∀ e < 32, ¬(lastWeekdayUpToR r (28 + k) w < e ∧ e ≤ 28 + k ∧ dowR r e = w)) := by
  decide

theorem getNthWeekday_take_drop (y : Int) (m : Nat) (w n : Nat)
    (hw : w < 7) (h1 : 1 ≤ n) (h4 : n ≤ 4) :
    getNthWeekdayOfMonth y m n w =
      ((weekdayOccurrences y m w).drop (n - 1)).take 1 := by
  rw [getNthWeekdayOfMonth_eq, weekdayOccurrences_eq]
  have hr := monthDow_lt y m
  obtain ⟨hl1, hl2⟩ := daysInMonth_bounds y m
  have core := getNthWeekdayR_core (monthDow y m) hr w hw
    (daysInMonth y m - 28) (by omega) (n - 1) (by omega)
  have h28 : 28 + (daysInMonth y m - 28) = daysInMonth y m := by omega
  have hn : n - 1 + 1 = n := by omega
  rw [h28, hn] at core
  exact core

/-- C5: for every (year, month, weekday) and every weekOfMonth N in
{1,2,3,4}, getNthWeekdayOfMonth returns the singleton list containing the
Nth occurrence of that weekday in the month when that occurrence exists,
and the empty list (no error) when the month has fewer than N occurrences
of that weekday. -/
theorem nthWeekday_singleton_or_empty (y : Int) (m : Nat) (w n : Nat)
    (hm : m < 12) (hw : w < 7) (h1 : 1 ≤ n) (h4 : n ≤ 4) :
    (∀ h : n - 1 < (weekdayOccurrences y m w).length,
        getNthWeekdayOfMonth y m n w = [(weekdayOccurrences y m w).get ⟨n - 1, h⟩]) ∧
    ((weekdayOccurrences y m w).length < n → getNthWeekdayOfMonth y m n w = []) := by
  have key := getNthWeekday_take_drop y m w n hw h1 h4
  constructor
  · intro h
    rw [key, List.take_one_drop_eq_of_lt_length h]
  · intro hlt
    rw [key, List.drop_eq_nil_of_le (by omega)]
    simp

/-- Witness for C5 at (2025, January, Wednesday, N = 3): the third
Wednesday of January 2025 is the 15th. -/
theorem nthWeekday_singleton_or_empty_witness :
    (0 : Nat) < 12 ∧ (3 : Nat) < 7 ∧ (1 : Nat) ≤ 3 ∧ (3 : Nat) ≤ 4 ∧
    getNthWeekdayOfMonth 2025 0 3 3 = [15] := by
  refine ⟨by decide, by decide, by decide, by decide, ?_⟩
  have h := (nthWeekday_singleton_or_empty 2025 0 3 3 (by decide) (by decide)
    (by decide) (by decide)).1 (by decide)
  rw [h]
  decide

/-- C6: for every (year, month, weekday), getNthWeekdayOfMonth with
weekOfMonth = 5 returns exactly one date; that date falls on the given
weekday, lies within the given month, and no later date in the same month
has that weekday. -/
theorem lastWeekday_exists_unique (y : Int) (m : Nat) (w : Nat)
    (hm : m < 12) (hw : w < 7) :
    ∃ d, getNthWeekdayOfMonth y m 5 w = [d] ∧ jsGetDay y m d = w ∧
      1 ≤ d ∧ d ≤ daysInMonth y m ∧
      ∀ e, d < e → e ≤ daysInMonth y m → jsGetDay y m e ≠ w := by
  have hr := monthDow_lt y m
  obtain ⟨hl1, hl2⟩ := daysInMonth_bounds y m
  have core := lastWeekdayR_core (monthDow y m) hr w hw
    (daysInMonth y m - 28) (by omega)
  have h28 : 28 + (daysInMonth y m - 28) = daysInMonth y m := by omega
  rw [h28] at core
  obtain ⟨hdow, hge, hle, hlast⟩ := core
  refine ⟨lastWeekdayUpToR (monthDow y m) (daysInMonth y m) w, ?_, ?_, hge, hle, ?_⟩
  · rw [getNthWeekdayOfMonth_eq]
    simp [getNthWeekdayR]
  · rw [jsGetDay_eq_dowR]
    exact hdow
  · intro e hd he hcon
    rw [jsGetDay_eq_dowR] at hcon
    exact hlast e (by omega) ⟨hd, he, hcon⟩

/-- Witness for C6 at (2025, January, Wednesday): the last Wednesday of
January 2025 is the 29th. -/
theorem lastWeekday_exists_unique_witness :
    (0 : Nat) < 12 ∧ (3 : Nat) < 7 ∧
    ∃ d, getNthWeekdayOfMonth 2025 0 5 3 = [d] ∧ jsGetDay 2025 0 d = 3 ∧
      1 ≤ d ∧ d ≤ daysInMonth 2025 0 ∧
      ∀ e, d < e → e ≤ daysInMonth 2025 0 → jsGetDay 2025 0 e ≠ 3 :=
  ⟨by decide, by decide, lastWeekday_exists_unique 2025 0 3 (by decide) (by decide)⟩

/-- C9: every Stripe webhook event that passes signature verification is
answered with HTTP 200 — capacity exceeded, (date, time) conflict, missing
booking and failed insert included — so fulfillment failures are never
thrown back to the payment provider. -/
theorem webhook_always_acknowledges (smtp : Bool) (db : DB) (ev : StripeEvent) :
    (stripeWebhookEndpoint true true smtp db ev).1.status = 200 := by
  cases ev with
  | otherEvent => rfl
  | checkoutSessionCompleted s =>
    unfold stripeWebhookEndpoint stripeWebhook webhookBooking webhookExisting
      webhookCreate webhookFinish webhookQuote
    simp only [Bool.not_true, Bool.false_eq_true, if_false]
    repeat' split <;> try rfl

/-- C7 counterexample: a DISABLED city with a configured cutoffDate and a
preferredDate strictly after the cutoff is rejected by the earlier
city-allow-list check, whose message does not name the cutoff date, so the
claim as stated fails for it. -/
theorem cutoff_message_cex :
    cxC7city.cutoffDate = some cxC7cutoff ∧
    CalDate.lt cxC7cutoff ⟨2025, 6, 1⟩ ∧
    (postBooking cxC7db cxC7req).1 = BookingResp.cityNotServed ∧
    (postBooking cxC7db cxC7req).1 ≠ BookingResp.cityClosed cxC7cutoff := by
  refine ⟨rfl, by decide, by decide, by decide⟩

/-- C7 amended: for every POST /api/booking request naming an ENABLED city
that has a configured cutoffDate, a preferredDate strictly after the cutoff
is rejected with HTTP 400, no row is inserted, and the response names the
cutoff date; no capacity condition is involved. -/
theorem cutoff_reject_amended (db : DB) (req : BookingReq) (cityRow : ServiceCity)
    (cd pd : CalDate)
    (hcity : checkServiceCity db (req.city.getD "") = some cityRow)
    (hcd : cityRow.cutoffDate = some cd)
    (hpd : req.preferredDate = some pd)
    (hlt : CalDate.lt cd pd) :
    postBooking db req = (BookingResp.cityClosed cd, db) ∧
    (BookingResp.cityClosed cd).status = 400 := by
  constructor
  · unfold postBooking
    simp only [hcity, hcd, hpd]
    simp [hlt]
  · rfl

/-- C7 witness. -/
theorem cutoff_reject_amended_witness :
    (checkServiceCity wC7db (cxC7req.city.getD "") = some wC7city ∧
     wC7city.cutoffDate = some cxC7cutoff ∧
     cxC7req.preferredDate = some ⟨2025, 6, 1⟩ ∧
     CalDate.lt cxC7cutoff ⟨2025, 6, 1⟩) ∧
    postBooking wC7db cxC7req = (BookingResp.cityClosed cxC7cutoff, wC7db) := by
  refine ⟨⟨by decide, rfl, rfl, by decide⟩, ?_⟩
  exact (cutoff_reject_amended wC7db cxC7req wC7city cxC7cutoff ⟨2025, 6, 1⟩
    (by decide) rfl rfl (by decide)).1

/-- C8 counterexample: with time selection DISABLED, a request that still
supplies a preferredTime matching an existing non-cancelled booking is
rejected by the same-(date, time) conflict check, so the check is not
enforced only when time selection is active. -/
theorem conflict_only_when_active_cex :
    cxC8db.config.timeSelectionValue = some "false" ∧
    (postBooking cxC8db cxC8req).1 = BookingResp.slotConflict ∧
    (postBooking cxC8db cxC8req).2 = cxC8db := by
  refine ⟨rfl, by decide, by decide⟩

/-- C8 amended: a POST /api/booking request whose (preferredDate,
preferredTime) pair matches an existing non-cancelled booking is rejected
with HTTP 409 and no row is inserted; the conflict check runs exactly when
the request supplies a preferredTime (always the case when time selection
is active, since the field is then required, but also with time selection
disabled). -/
theorem conflict_reject_amended (db : DB) (req : BookingReq) (cityRow : ServiceCity)
    (nm em ph ct st t : String) (pd : CalDate)
    (hcity : checkServiceCity db (req.city.getD "") = some cityRow)
    (hcut : ∀ cd, cityRow.cutoffDate = some cd → ¬ CalDate.lt cd pd)
    (hnm : req.name = some nm) (hem : req.email = some em)
    (hph : req.phone = some ph) (hct : req.city = some ct)
    (hst : req.serviceType = some st) (hpd : req.preferredDate = some pd)
    (ht : req.preferredTime = some t)
    (hconf : (checkBookingConflict db pd t).isSome = true) :
    (postBooking db req).1.status = 409 ∧ (postBooking db req).2 = db := by
  have hrest : postBookingFields db req = postBookingCapacity db req nm em ph ct st pd := by
    unfold postBookingFields
    simp only [hnm, hem, hph, hct, hst, hpd, ht]
    simp
  have hfields :
      postBooking db req = postBookingCapacity db req nm em ph ct st pd := by
    unfold postBooking
    simp only [hcity]
    cases hcd : cityRow.cutoffDate with
    | none => simp only [hcd, hpd]; exact hrest
    | some cd =>
      have := hcut cd hcd
      simp only [hcd, hpd]
      simp [this, hrest]
  rw [hfields]
  unfold postBookingCapacity
  dsimp only
  simp only [ht]
  obtain ⟨b, hb⟩ := Option.isSome_iff_exists.mp hconf
  split
  · exact ⟨rfl, rfl⟩
  · simp [hb, BookingResp.status]

/-- C8 witness. -/
theorem conflict_reject_amended_witness :
    ((checkBookingConflict cxC8db ⟨2025, 5, 10⟩ "10:00").isSome = true) ∧
    (postBooking cxC8db cxC8req).1.status = 409 ∧ (postBooking cxC8db cxC8req).2 = cxC8db := by
  refine ⟨by decide, ?_⟩
  exact conflict_reject_amended cxC8db cxC8req cxC8city "n" "e" "p" "X" "svc" "10:00"
    ⟨2025, 5, 10⟩ (by decide) (by intro cd hcd; cases hcd) rfl rfl rfl rfl rfl rfl rfl
    (by decide)

/-- Every POST /api/booking insert attempt hits the bind-count mismatch
(18 values for 20 placeholders) and returns the generic 500. -/
theorem postBookingInsert_bind (db : DB) (nm em ph ct st : String) (pd : CalDate)
    (tOpt : Option String) :
    postBookingInsert db nm em ph ct st pd tOpt = (BookingResp.insertError, db) := rfl

/-- C10: the claimed flow cannot happen in the source — POST /api/booking
binds only 18 values to the 20-parameter insertBooking statement
(src/src/index.ts 1339-1358 vs src/server/index.ts 1242-1245), so every
insert attempt raises a bind RangeError carrying no SQLite error code and
the catch answers the generic HTTP 500 with no row stored: the endpoint
never returns created, never reaches the 409 SQLITE_CONSTRAINT_UNIQUE
path, and never changes the database.  In particular the concrete request
of the claimed scenario (time selection disabled, no preferredTime, empty
table, enabled city) yields 500 instead of storing a "09:00" row. -/
theorem booking_insert_bind_bug :
    (∀ (db : DB) (req : BookingReq),
      (postBooking db req).2 = db ∧
      (∀ n, (postBooking db req).1 ≠ BookingResp.created n) ∧
      (postBooking db req).1 ≠ BookingResp.uniqueViolation) ∧
    postBooking cxC10db cxC10req = (BookingResp.insertError, cxC10db) ∧
    BookingResp.insertError.status = 500 := by
  refine ⟨?_, by decide, rfl⟩
  intro db req
  unfold postBooking postBookingFields postBookingCapacity
  dsimp only
  repeat' split
  all_goals simp [postBookingInsert_bind]

/-- C1 counterexample: a webhook confirmation event for an EXISTING booking
(metadata.bookingId, the source's old flow) on a date whose paid count
already equals the effective capacity is confirmed anyway — no capacity
re-check runs, the booking turns paid/pending, and the only e-mail sent is
the confirmation, not a refund alert. -/
theorem paymentConfirm_capacity_cex :
    ((countPaidBookingsByDate cxC1db ⟨2025, 5, 10⟩ : Int) ≥
      (resolveCapacity cxC1db (some "svc")).1) ∧
    (stripeWebhook true cxC1db (.checkoutSessionCompleted cxC1sess)).2.2 =
      [Email.bookingConfirmed "b@x" 2] ∧
    (getBookingById (stripeWebhook true cxC1db (.checkoutSessionCompleted cxC1sess)).2.1 2).map
      (fun b => (b.status, b.paymentStatus)) = some ("pending", "paid") := by
  refine ⟨by decide, by decide, by decide⟩

/-- C1 amended: payment-confirmation events carrying booking-creation
metadata (no bookingId) re-resolve the effective capacity and re-count paid
non-cancelled bookings at confirmation time (service-scoped exactly when
the service defines maxBookingsPerDay); when the count is already ≥
capacity the booking is not created: the webhook leaves the database
unchanged and sends the refund failure notification to the operator
mailbox (when SMTP is configured), while verify-payment reports failure
without sending any notification.  Events referencing an existing booking
by id are confirmed (paid/pending) without any capacity re-check. -/
theorem paymentConfirm_capacity_amended :
    (∀ (smtp : Bool) (db : DB) (s : StripeSession) (nm : String) (pd : CalDate),
      s.metadata.type = some "booking" →
      (s.livemode = true ∨ db.config.testModeValue = some "true") →
      s.metadata.bookingId = none →
      s.metadata.bookingName = some nm →
      s.metadata.bookingPreferredDate = some pd →
      ((countPaidScoped db pd s.metadata.bookingServiceType
          (resolveCapacity db s.metadata.bookingServiceType).2 : Int) ≥
        (resolveCapacity db s.metadata.bookingServiceType).1) →
      stripeWebhook smtp db (.checkoutSessionCompleted s) =
        ({ status := 200, received := true, error := some "date_full" }, db,
         if smtp then [Email.capacityAlert (s.metadata.bookingEmail.getD "") nm pd]
         else [])) ∧
    (∀ (smtp : Bool) (db : DB) (s : StripeSession) (nm : String) (pd : CalDate),
      (s.livemode = true ∨ db.config.testModeValue = some "true") →
      (s.paymentStatus == some "paid" || s.sessionStatus == some "complete") = true →
      s.metadata.bookingId = none →
      s.metadata.bookingName = some nm →
      s.metadata.bookingPreferredDate = some pd →
      ((countPaidScoped db pd s.metadata.bookingServiceType
          (resolveCapacity db s.metadata.bookingServiceType).2 : Int) ≥
        (resolveCapacity db s.metadata.bookingServiceType).1) →
      verifyPayment smtp db s =
        ({ status := 200, ok := false, error := some "date_full" }, db, [])) ∧
    (∀ (smtp : Bool) (db : DB) (s : StripeSession) (bid : Nat) (bk : Booking),
      s.metadata.type = some "booking" →
      (s.livemode = true ∨ db.config.testModeValue = some "true") →
      s.metadata.bookingId = some bid →
      getBookingById db bid = some bk →
      ∃ db2, stripeWebhook smtp db (.checkoutSessionCompleted s) =
        ({ status := 200, received := true, error := none }, db2,
         if smtp then [Email.bookingConfirmed bk.email bk.id] else []) ∧
        ∀ b ∈ db2.bookings, b.id = bid →
          b.status = "pending" ∧ b.paymentStatus = "paid") := by
  refine ⟨?_, ?_, ?_⟩
  · intro smtp db s nm pd htype htest hbid hnm hpd hcap
    unfold stripeWebhook
    have hgate : (!s.livemode && !(db.config.testModeValue == some "true")) = false := by
      rcases htest with h | h <;> simp [h]
    simp only [hgate, Bool.false_eq_true, if_false, htype]
    unfold webhookBooking
    simp only [hbid, hnm, hpd]
    simp [hcap]
  · intro smtp db s nm pd htest hpaid hbid hnm hpd hcap
    unfold verifyPayment
    have hgate : (!s.livemode && !(db.config.testModeValue == some "true")) = false := by
      rcases htest with h | h <;> simp [h]
    simp only [hgate, Bool.false_eq_true, if_false, hpaid]
    simp only [hbid, hnm, hpd]
    simp [hcap]
  · intro smtp db s bid bk htype htest hbid hbk
    unfold stripeWebhook
    have hgate : (!s.livemode && !(db.config.testModeValue == some "true")) = false := by
      rcases htest with h | h <;> simp [h]
    simp only [hgate, Bool.false_eq_true, if_false, htype]
    unfold webhookBooking webhookExisting webhookFinish
    simp only [hbid, hbk]
    refine ⟨_, rfl, ?_⟩
    intro b hb hbid2
    simp only [updateBookingStatus, updateBookingPayment, List.map_map] at hb
    obtain ⟨x, hx, rfl⟩ := List.mem_map.mp hb
    by_cases hxid : x.id = bid
    · simp [hxid]
    · simp only [Function.comp_apply, if_neg hxid] at hbid2
      exact absurd hbid2 hxid

/-- C1 witness: all three branches at concrete inputs on a full date. -/
theorem paymentConfirm_capacity_amended_witness :
    ((countPaidScoped cxC1db ⟨2025, 5, 10⟩ (some "svc")
        (resolveCapacity cxC1db (some "svc")).2 : Int) ≥
      (resolveCapacity cxC1db (some "svc")).1) ∧
    stripeWebhook true cxC1db (.checkoutSessionCompleted cxC1sessNew) =
      ({ status := 200, received := true, error := some "date_full" }, cxC1db,
        [Email.capacityAlert "c@x" "c" ⟨2025, 5, 10⟩]) ∧
    verifyPayment true cxC1db cxC1sessNew =
      ({ status := 200, ok := false, error := some "date_full" }, cxC1db, []) ∧
    (∃ db2, stripeWebhook true cxC1db (.checkoutSessionCompleted cxC1sess) =
      ({ status := 200, received := true, error := none }, db2,
        [Email.bookingConfirmed "b@x" 2]) ∧
      ∀ b ∈ db2.bookings, b.id = 2 → b.status = "pending" ∧ b.paymentStatus = "paid") := by
  refine ⟨by decide, ?_, ?_, ?_⟩
  · exact paymentConfirm_capacity_amended.1 true cxC1db cxC1sessNew "c" ⟨2025, 5, 10⟩
      rfl (Or.inl rfl) rfl rfl rfl (by decide)
  · exact paymentConfirm_capacity_amended.2.1 true cxC1db cxC1sessNew "c" ⟨2025, 5, 10⟩
      (Or.inl rfl) (by decide) rfl rfl rfl (by decide)
  · exact paymentConfirm_capacity_amended.2.2 true cxC1db cxC1sess 2 cxC1await
      rfl (Or.inl rfl) rfl (by decide)

/-- C2 counterexample: with the booking already pending/paid, a second
webhook delivery for the same session leaves the state unchanged and
reports success, but re-sends the confirmation e-mail, so the second call
does produce a duplicate notification. -/
theorem paymentConfirm_idem_cex :
    (getBookingById cxC2db 1).map (fun b => (b.status, b.paymentStatus)) =
      some ("pending", "paid") ∧
    (stripeWebhook true cxC2db (.checkoutSessionCompleted cxC2sess)).2.1 = cxC2db ∧
    (stripeWebhook true cxC2db (.checkoutSessionCompleted cxC2sess)).2.2 =
      [Email.bookingConfirmed "a@x" 1] ∧
    (stripeWebhook true
        (stripeWebhook true cxC2db (.checkoutSessionCompleted cxC2sess)).2.1
        (.checkoutSessionCompleted cxC2sess)).2.2 =
      [Email.bookingConfirmed "a@x" 1] := by
  refine ⟨by decide, by decide, by decide, by decide⟩

/-- C2 amended: verify-payment is idempotent — called again for the same
session with the booking already pending/paid it reports success with no
state change and no notification e-mail; the webhook also reports success
and leaves the state unchanged on the repeated call, but re-sends the
confirmation e-mail on every invocation (when SMTP is configured). -/
theorem paymentConfirm_idem_amended :
    (∀ (smtp : Bool) (db : DB) (s : StripeSession) (bid : Nat) (bk : Booking),
      (s.livemode = true ∨ db.config.testModeValue = some "true") →
      (s.paymentStatus == some "paid" || s.sessionStatus == some "complete") = true →
      s.metadata.bookingId = some bid →
      getBookingById db bid = some bk →
      bk.paymentStatus = "paid" →
      verifyPayment smtp db s = ({ status := 200, ok := true, error := none }, db, [])) ∧
    (∀ (smtp : Bool) (db : DB) (s : StripeSession) (bid : Nat) (bk : Booking),
      s.metadata.type = some "booking" →
      (s.livemode = true ∨ db.config.testModeValue = some "true") →
      s.metadata.bookingId = some bid →
      getBookingById db bid = some bk →
      bk.status = "pending" → bk.paymentStatus = "paid" →
      bk.stripeSessionId = some s.id →
      bk.stripePaymentIntentId = s.paymentIntent →
      (∀ b ∈ db.bookings, b.id = bid → b = bk) →
      stripeWebhook smtp db (.checkoutSessionCompleted s) =
        ({ status := 200, received := true, error := none }, db,
         if smtp then [Email.bookingConfirmed bk.email bk.id] else [])) := by
  constructor
  · intro smtp db s bid bk htest hpaid hbid hbk hpay
    unfold verifyPayment
    have hgate : (!s.livemode && !(db.config.testModeValue == some "true")) = false := by
      rcases htest with h | h <;> simp [h]
    simp only [hgate, Bool.false_eq_true, if_false, hpaid]
    simp only [hbid, hbk]
    unfold verifyFinish
    simp [hpay]
  · intro smtp db s bid bk htype htest hbid hbk hst hpay hsess hpi hall
    unfold stripeWebhook
    have hgate : (!s.livemode && !(db.config.testModeValue == some "true")) = false := by
      rcases htest with h | h <;> simp [h]
    simp only [hgate, Bool.false_eq_true, if_false, htype]
    unfold webhookBooking webhookExisting webhookFinish
    simp only [hbid, hbk]
    have hupd1 : updateBookingPayment db s.paymentIntent s.id "paid" bid = db := by
      unfold updateBookingPayment
      dsimp only
      have hmap : (db.bookings.map fun b =>
          if b.id = bid then
            { b with stripePaymentIntentId := s.paymentIntent,
                     stripeSessionId := some s.id, paymentStatus := "paid" }
          else b) = db.bookings := by
        rw [List.map_congr_left (g := id), List.map_id]
        intro b hb
        by_cases hbid2 : b.id = bid
        · have hbk2 := hall b hb hbid2
          subst hbk2
          simp only [if_pos hbid2, id]
          cases b
          simp_all
        · simp [hbid2]
      rw [hmap]
    have hupd2 : updateBookingStatus db "pending" bid = db := by
      unfold updateBookingStatus
      dsimp only
      have hmap : (db.bookings.map fun b =>
          if b.id = bid then { b with status := "pending" } else b) = db.bookings := by
        rw [List.map_congr_left (g := id), List.map_id]
        intro b hb
        by_cases hbid2 : b.id = bid
        · have hbk2 := hall b hb hbid2
          subst hbk2
          simp only [if_pos hbid2, id]
          cases b
          simp_all
        · simp [hbid2]
      rw [hmap]
    rw [hupd1, hupd2]
    simp

/-- C2 witness: the already-confirmed booking of the counterexample. -/
theorem paymentConfirm_idem_amended_witness :
    (getBookingById cxC2db 1 = some cxC2bk ∧ cxC2bk.status = "pending" ∧
      cxC2bk.paymentStatus = "paid") ∧
    verifyPayment true cxC2db cxC2sess =
      ({ status := 200, ok := true, error := none }, cxC2db, []) ∧
    stripeWebhook true cxC2db (.checkoutSessionCompleted cxC2sess) =
      ({ status := 200, received := true, error := none }, cxC2db,
       [Email.bookingConfirmed "a@x" 1]) := by
  refine ⟨⟨by decide, rfl, rfl⟩, ?_, ?_⟩
  · exact paymentConfirm_idem_amended.1 true cxC2db cxC2sess 1 cxC2bk
      (Or.inl rfl) (by decide) rfl (by decide) rfl
  · exact paymentConfirm_idem_amended.2 true cxC2db cxC2sess 1 cxC2bk
      rfl (Or.inl rfl) rfl (by decide) rfl rfl rfl rfl (by decide)

/-! ## Deduplicating accumulation and grouped counting -/

theorem mem_foldl_dedupAppend [DecidableEq α] (l acc : List α) (y : α) :
    y ∈ l.foldl dedupAppend acc ↔ y ∈ acc ∨ y ∈ l := by
  induction l generalizing acc with
  | nil => simp
  | cons x xs ih =>
    simp only [List.foldl_cons, ih, dedupAppend]
    split
    · rename_i hx
      simp only [List.mem_cons]
      constructor
      · rintro (h | h)
        · exact Or.inl h
        · exact Or.inr (Or.inr h)
      · rintro (h | rfl | h)
        · exact Or.inl h
        · exact Or.inl hx
        · exact Or.inr h
    · simp only [List.mem_append, List.mem_singleton, List.mem_cons]
      tauto

theorem nodup_foldl_dedupAppend [DecidableEq α] (l acc : List α) (h : acc.Nodup) :
    (l.foldl dedupAppend acc).Nodup := by
  induction l generalizing acc with
  | nil => simpa
  | cons x xs ih =>
    simp only [List.foldl_cons]
    apply ih
    unfold dedupAppend
    split
    · exact h
    · rename_i hx
      simp [List.nodup_append, h, hx]

theorem mem_distinctList [DecidableEq α] (l : List α) (y : α) :
    y ∈ distinctList l ↔ y ∈ l := by
  unfold distinctList
  rw [mem_foldl_dedupAppend]
  simp

/-- Membership in the fullDates computed from grouped rows. -/
theorem mem_groupsFull (rows : List Booking) (cap : Int) (d : CalDate) :
    (d ∈ (((distinctList (rows.map (fun b => b.preferredDate))).map
        (fun dd => (dd, (rows.filter (fun b => b.preferredDate == dd)).length))).filter
          (fun p => decide ((p.2 : Int) ≥ cap))).map (fun p => p.1) ↔
      ((∃ b ∈ rows, b.preferredDate = d) ∧
        ((rows.filter (fun b => b.preferredDate == d)).length : Int) ≥ cap)) := by
  rw [List.mem_map]
  constructor
  · rintro ⟨p, hp, rfl⟩
    rw [List.mem_filter] at hp
    obtain ⟨hpg, hpc⟩ := hp
    rw [List.mem_map] at hpg
    obtain ⟨dd, hdd, hpe⟩ := hpg
    cases hpe
    rw [mem_distinctList, List.mem_map] at hdd
    obtain ⟨b, hb, hbd⟩ := hdd
    refine ⟨⟨b, hb, hbd⟩, by simpa using hpc⟩
  · rintro ⟨⟨b, hb, hbd⟩, hc⟩
    refine ⟨(d, (rows.filter (fun b => b.preferredDate == d)).length), ?_, rfl⟩
    rw [List.mem_filter]
    constructor
    · rw [List.mem_map]
      refine ⟨d, ?_, rfl⟩
      rw [mem_distinctList, List.mem_map]
      exact ⟨b, hb, hbd⟩
    · simpa using hc

theorem filter_range_point (bookings : List Booking) (q : Booking → Bool)
    (s e d : CalDate) (hs : CalDate.le s d) (he : CalDate.le d e) :
    ((bookings.filter (fun b =>
        decide (CalDate.le s b.preferredDate) &&
          (decide (CalDate.le b.preferredDate e) && q b))).filter
      (fun b => b.preferredDate == d)) =
    bookings.filter (fun b => b.preferredDate == d && q b) := by
  rw [List.filter_filter]
  apply List.filter_congr
  intro b _
  by_cases hbd : b.preferredDate = d
  · have htrue : (b.preferredDate == d) = true := beq_iff_eq.mpr hbd
    simp [htrue, hbd, hs, he]
  · have hfalse : (b.preferredDate == d) = false := beq_eq_false_iff_ne.mpr hbd
    simp [hfalse]

/-- Membership in fullDates computed from a range-and-q row filter equals
the point-count condition, for dates in range. -/
theorem fullDates_helper (bookings : List Booking) (q rowsPred cntPred : Booking → Bool)
    (cap : Int) (s e d : CalDate)
    (hrows : ∀ b, rowsPred b = (decide (CalDate.le s b.preferredDate) &&
      (decide (CalDate.le b.preferredDate e) && q b)))
    (hcnt : ∀ b, cntPred b = (b.preferredDate == d && q b)) :
    (d ∈ (((distinctList ((bookings.filter rowsPred).map (fun b => b.preferredDate))).map
        (fun dd => (dd, ((bookings.filter rowsPred).filter
          (fun b => b.preferredDate == dd)).length))).filter
          (fun p => decide ((p.2 : Int) ≥ cap))).map (fun p => p.1) ↔
      (CalDate.le s d ∧ CalDate.le d e ∧
        1 ≤ (bookings.filter cntPred).length ∧
        ((bookings.filter cntPred).length : Int) ≥ cap)) := by
  have hre : bookings.filter rowsPred = bookings.filter (fun b =>
      decide (CalDate.le s b.preferredDate) &&
        (decide (CalDate.le b.preferredDate e) && q b)) :=
    List.filter_congr (fun b _ => hrows b)
  have hce : bookings.filter cntPred = bookings.filter
      (fun b => b.preferredDate == d && q b) :=
    List.filter_congr (fun b _ => hcnt b)
  rw [hre, hce, mem_groupsFull]
  constructor
  · rintro ⟨⟨b, hb, hbd⟩, hcap⟩
    rw [List.mem_filter] at hb
    obtain ⟨hbl, hbp⟩ := hb
    simp only [Bool.and_eq_true, decide_eq_true_eq] at hbp
    obtain ⟨h1, h2, h3⟩ := hbp
    rw [hbd] at h1 h2
    have hfr := filter_range_point bookings q s e d h1 h2
    rw [hfr] at hcap
    refine ⟨h1, h2, ?_, hcap⟩
    have hbmem : b ∈ bookings.filter (fun b => b.preferredDate == d && q b) := by
      rw [List.mem_filter]
      exact ⟨hbl, by simp [hbd, h3]⟩
    calc 1 ≤ 0 + 1 := by omega
    _ ≤ (bookings.filter (fun b => b.preferredDate == d && q b)).length :=
      List.length_pos_of_mem hbmem
  · rintro ⟨hs, he, hpos, hcap⟩
    have hfr := filter_range_point bookings q s e d hs he
    rw [hfr]
    refine ⟨?_, hcap⟩
    have hpos2 : 0 < (bookings.filter (fun b => b.preferredDate == d && q b)).length := by
      omega
    obtain ⟨b, hb⟩ := List.exists_mem_of_length_pos hpos2
    rw [List.mem_filter] at hb
    obtain ⟨hbl, hbp⟩ := hb
    simp only [Bool.and_eq_true, beq_iff_eq] at hbp
    obtain ⟨hbd, h3⟩ := hbp
    refine ⟨b, ?_, hbd⟩
    rw [List.mem_filter]
    simp only [Bool.and_eq_true, decide_eq_true_eq]
    exact ⟨hbl, hbd ▸ hs, hbd ▸ he, h3⟩

/-- C3 counterexample: with a service-level capacity of 0 (stored without
validation by the admin service endpoints), a date with zero paid bookings
satisfies count ≥ capacity yet never appears in fullDates, because the
GROUP BY only yields dates having at least one paid booking. -/
theorem fullDates_iff_cex :
    ((countPaidScoped cxC3db ⟨2025, 5, 10⟩ (some "svc")
        (resolveCapacity cxC3db (some "svc")).2 : Int) ≥
      (resolveCapacity cxC3db (some "svc")).1) ∧
    CalDate.le ⟨2025, 5, 10⟩ ⟨2025, 5, 10⟩ ∧
    ¬((⟨2025, 5, 10⟩ : CalDate) ∈ (availableDates cxC3db (some ⟨2025, 5, 10⟩)
        (some ⟨2025, 5, 10⟩) none (some "svc")).fullDates) := by
  refine ⟨by decide, by decide, by decide⟩

/-- C3 amended: a date appears in fullDates exactly when it lies in the
queried [startDate, endDate] range and the count of paid non-cancelled
bookings on it — scoped to the requested service when that service defines
maxBookingsPerDay, global otherwise — is at least 1 and at least the
effective capacity.  Unpaid and awaiting-payment bookings never contribute
to the count; for capacities ≥ 1 the at-least-1 condition is implied and
the claim reduces to the original reading on the queried range. -/
theorem fullDates_iff_amended (db : DB) (s e d : CalDate) (city svc : Option String) :
    d ∈ (availableDates db (some s) (some e) city svc).fullDates ↔
      (CalDate.le s d ∧ CalDate.le d e ∧
        1 ≤ countPaidScoped db d svc (resolveCapacity db svc).2 ∧
        (countPaidScoped db d svc (resolveCapacity db svc).2 : Int) ≥
          (resolveCapacity db svc).1) := by
  unfold availableDates
  dsimp only
  cases hscope : (resolveCapacity db svc).2 with
  | false =>
    simp only [hscope, Bool.false_eq_true, if_false]
    unfold countPaidScoped
    simp only [Bool.false_eq_true, if_false]
    unfold getPaidBookingsByDateRange countPaidBookingsByDate
    dsimp only
    exact fullDates_helper db.bookings isPaidActive _ _ (resolveCapacity db svc).1 s e d
      (fun b => by simp [Bool.and_assoc]) (fun b => rfl)
  | true =>
    simp only [hscope, if_true]
    unfold countPaidScoped
    simp only [if_true]
    unfold getPaidBookingsByDateRangeAndService countPaidBookingsByDateAndService
    dsimp only
    exact fullDates_helper db.bookings
      (fun b => b.serviceType == (svc.getD "") && isPaidActive b) _ _
      (resolveCapacity db svc).1 s e d
      (fun b => by simp [Bool.and_assoc]) (fun b => by simp [Bool.and_assoc])

/-! ## The available-dates month walk and allowedDates -/


theorem nextCurrent_day (c : CalDate) : (nextCurrent c).day = 1 := by
  unfold nextCurrent
  dsimp only
  split <;> rfl

theorem monthIndex_addMonths_one (y : Int) (m : Fin 12) :
    monthIndex (addMonths y m 1).1 (addMonths y m 1).2 = monthIndex y m + 1 := by
  unfold addMonths monthIndex
  dsimp only
  have := m.isLt
  omega

theorem nextCurrent_index (c : CalDate) (hday : c.day ≤ 28) :
    monthIndex (nextCurrent c).year (nextCurrent c).month =
      monthIndex c.year c.month + 1 := by
  have hb := (daysInMonth_bounds (addMonths c.year c.month 1).1
    ((addMonths c.year c.month 1).2 : Nat)).1
  unfold nextCurrent
  dsimp only
  rw [if_neg (by omega)]
  exact monthIndex_addMonths_one c.year c.month

theorem calDateLe_index (c e : CalDate) (h : CalDate.le c e) :
    monthIndex c.year c.month ≤ monthIndex e.year e.month := by
  have h1 := c.month.isLt
  have h2 := e.month.isLt
  unfold CalDate.le at h
  unfold monthIndex
  omega

theorem calDateLe_trans (a b c : CalDate) (h1 : CalDate.le a b) (h2 : CalDate.le b c) :
    CalDate.le a c := by
  have m1 := a.month.isLt
  have m2 := b.month.isLt
  have m3 := c.month.isLt
  unfold CalDate.le at *
  omega

theorem calDateLe_day1 (c e : CalDate) (hc : c.day = 1) (he : 1 ≤ e.day) :
    CalDate.le c e ↔ monthIndex c.year c.month ≤ monthIndex e.year e.month := by
  have m1 := c.month.isLt
  have m2 := e.month.isLt
  unfold CalDate.le monthIndex
  omega

theorem monthIndex_inj (y yy : Int) (m mm : Fin 12)
    (h : monthIndex y m = monthIndex yy mm) : y = yy ∧ (m : Nat) = (mm : Nat) := by
  have m1 := m.isLt
  have m2 := mm.isLt
  unfold monthIndex at h
  omega

/-- The month loop visits exactly the months between start and end (by
month index), provided the start day cannot overflow the next month
(day ≤ 28) and the end date has a positive day of month. -/
theorem monthsVisitedFuel_mem (e : CalDate) (ym : Int × Fin 12) (hed : 1 ≤ e.day) :
    ∀ (n : Nat) (c : CalDate), c.day ≤ 28 → monthsFuel c e ≤ n →
      (ym ∈ monthsVisitedFuel n c e ↔
        (CalDate.le c e ∧ monthIndex c.year c.month ≤ monthIndex ym.1 ym.2 ∧
         monthIndex ym.1 ym.2 ≤ monthIndex e.year e.month)) := by
  intro n
  induction n with
  | zero =>
    intro c hday hfuel
    simp only [monthsVisitedFuel, List.not_mem_nil, false_iff]
    rintro ⟨hle, h1, h2⟩
    have := calDateLe_index c e hle
    unfold monthsFuel at hfuel
    omega
  | succ n ih =>
    intro c hday hfuel
    rw [monthsVisitedFuel]
    by_cases hle : CalDate.le c e
    · rw [if_pos hle]
      have hnc_day := nextCurrent_day c
      have hnc_idx := nextCurrent_index c hday
      have hidx_le := calDateLe_index c e hle
      have hfuel2 : monthsFuel (nextCurrent c) e ≤ n := by
        unfold monthsFuel at hfuel ⊢
        omega
      rw [List.mem_cons, ih (nextCurrent c) (by omega) hfuel2]
      constructor
      · rintro (rfl | ⟨hle2, hi1, hi2⟩)
        · exact ⟨hle, le_refl _, hidx_le⟩
        · exact ⟨hle, by omega, hi2⟩
      · rintro ⟨-, hi1, hi2⟩
        by_cases hidx_eq : monthIndex ym.1 ym.2 = monthIndex c.year c.month
        · left
          obtain ⟨hy, hm⟩ := monthIndex_inj ym.1 c.year ym.2 c.month hidx_eq
          obtain ⟨y1, m1⟩ := ym
          simp only at hy hm
          subst hy
          simp only [Prod.mk.injEq, true_and]
          exact Fin.ext hm
        · right
          refine ⟨?_, by omega, hi2⟩
          rw [calDateLe_day1 _ _ hnc_day hed]
          omega
    · rw [if_neg hle]
      simp only [List.not_mem_nil, false_iff]
      rintro ⟨hle2, -⟩
      exact hle hle2

theorem monthsVisited_mem (s e : CalDate) (ym : Int × Fin 12)
    (hday : s.day ≤ 28) (hed : 1 ≤ e.day) :
    ym ∈ monthsVisited s e ↔
      (CalDate.le s e ∧ monthIndex s.year s.month ≤ monthIndex ym.1 ym.2 ∧
       monthIndex ym.1 ym.2 ≤ monthIndex e.year e.month) :=
  monthsVisitedFuel_mem e ym hed (monthsFuel s e) s hday (le_refl _)

theorem passageDatesForMonth_fields (w d : Option Nat) (ym : Int × Fin 12)
    (dd : CalDate) (h : dd ∈ passageDatesForMonth w d ym) :
    dd.year = ym.1 ∧ dd.month = ym.2 := by
  cases w with
  | none => simp [passageDatesForMonth] at h
  | some wk =>
    cases d with
    | none => simp [passageDatesForMonth] at h
    | some wd =>
      simp only [passageDatesForMonth, List.mem_map] at h
      obtain ⟨day, -, rfl⟩ := h
      exact ⟨rfl, rfl⟩

theorem monthPassageDates_fields (cfg : PassageCfg) (ym : Int × Fin 12)
    (dd : CalDate) (h : dd ∈ monthPassageDates cfg ym) :
    dd.year = ym.1 ∧ dd.month = ym.2 := by
  unfold monthPassageDates at h
  rw [List.mem_append] at h
  rcases h with h | h <;> exact passageDatesForMonth_fields _ _ _ _ h

theorem mem_allowedCandidates (cfg : PassageCfg) (s e dd : CalDate) :
    dd ∈ allowedCandidates cfg s e ↔
      ∃ ym ∈ monthsVisited s e, dd ∈ monthPassageDates cfg ym ∧
        CalDate.le s dd ∧ CalDate.le dd e := by
  unfold allowedCandidates
  rw [List.mem_flatMap]
  simp only [List.mem_filter, Bool.and_eq_true, decide_eq_true_eq]

/-- For queries whose start day is ≤ 28, the accumulated allowedDates list
contains a date exactly when it is a passage date of its own month lying in
the queried range. -/
theorem mem_computeAllowed (cfg : PassageCfg) (s e dd : CalDate)
    (hday : s.day ≤ 28) (hed : 1 ≤ e.day) :
    dd ∈ computeAllowed cfg s e ↔
      (dd ∈ monthPassageDates cfg (dd.year, dd.month) ∧
        CalDate.le s dd ∧ CalDate.le dd e) := by
  unfold computeAllowed
  rw [mem_foldl_dedupAppend]
  simp only [List.not_mem_nil, false_or]
  rw [mem_allowedCandidates]
  constructor
  · rintro ⟨ym, hym, hmem, hs1, he1⟩
    obtain ⟨hy, hm⟩ := monthPassageDates_fields cfg ym dd hmem
    have hymeq : ym = (dd.year, dd.month) := by
      obtain ⟨y1, m1⟩ := ym
      simp only at hy hm
      rw [hy, hm]
    rw [hymeq] at hmem
    exact ⟨hmem, hs1, he1⟩
  · rintro ⟨hmem, hs1, he1⟩
    refine ⟨(dd.year, dd.month), ?_, hmem, hs1, he1⟩
    rw [monthsVisited_mem s e _ hday hed]
    exact ⟨calDateLe_trans s dd e hs1 he1, calDateLe_index s dd hs1,
      calDateLe_index dd e he1⟩

theorem nodup_computeAllowed (cfg : PassageCfg) (s e : CalDate) :
    (computeAllowed cfg s e).Nodup :=
  nodup_foldl_dedupAppend _ _ List.nodup_nil

/-- C4 counterexample: a service passage configuration is present (so a
passage restriction applies), yet allowedDates is null because the
passage-computed date (the 1st Wednesday of January 2025) falls outside
the queried [Jan 10, Jan 20] range — null does not mean "no restriction
applies". -/
theorem allowedDates_null_cex :
    (resolvePassage cxC4db none (some "svc")).isSome = true ∧
    (availableDates cxC4db (some ⟨2025, 0, 10⟩) (some ⟨2025, 0, 20⟩) none
      (some "svc")).allowedDates = none := by
  refine ⟨by decide, by decide⟩

/-- C4 amended: with the service passage configuration taking precedence
over the city one, allowedDates is null when no passage restriction
applies, and — for queries whose startDate day of month is at most 28 (so
the JS setMonth month walk skips no month) and whose endDate has a
positive day — when a restriction applies, allowedDates is null exactly
when no passage-computed date of the months in range lies within
[startDate, endDate], and otherwise lists exactly those dates, without
duplicates. -/
theorem allowedDates_union_amended (db : DB) (s e : CalDate) (city svc : Option String)
    (hday : s.day ≤ 28) (hed : 1 ≤ e.day) :
    (resolvePassage db city svc = none →
      (availableDates db (some s) (some e) city svc).allowedDates = none) ∧
    (∀ cfg, resolvePassage db city svc = some cfg →
      ((availableDates db (some s) (some e) city svc).allowedDates = none ↔
        ∀ dd : CalDate, ¬(dd ∈ monthPassageDates cfg (dd.year, dd.month) ∧
          CalDate.le s dd ∧ CalDate.le dd e)) ∧
      (∀ l, (availableDates db (some s) (some e) city svc).allowedDates = some l →
        l.Nodup ∧
        ∀ dd : CalDate, (dd ∈ l ↔ (dd ∈ monthPassageDates cfg (dd.year, dd.month) ∧
          CalDate.le s dd ∧ CalDate.le dd e)))) := by
  constructor
  · intro hr
    unfold availableDates
    dsimp only
    rw [hr]
    rfl
  · intro cfg hr
    have havail : (availableDates db (some s) (some e) city svc).allowedDates =
        (if (computeAllowed cfg s e).isEmpty then none
         else some (computeAllowed cfg s e)) := by
      unfold availableDates
      dsimp only
      rw [hr]
    constructor
    · rw [havail]
      constructor
      · intro hnone dd hmem
        have hne : (computeAllowed cfg s e).isEmpty = true := by
          by_contra hne
          rw [if_neg (by simpa using hne)] at hnone
          cases hnone
        rw [List.isEmpty_iff] at hne
        have := (mem_computeAllowed cfg s e dd hday hed).mpr hmem
        rw [hne] at this
        cases this
      · intro hall
        have hempty : computeAllowed cfg s e = [] := by
          rw [List.eq_nil_iff_forall_not_mem]
          intro dd hdd
          exact hall dd ((mem_computeAllowed cfg s e dd hday hed).mp hdd)
        rw [hempty]
        rfl
    · intro l hl
      rw [havail] at hl
      have hleq : computeAllowed cfg s e = l := by
        by_cases hemp : (computeAllowed cfg s e).isEmpty
        · rw [if_pos hemp] at hl
          cases hl
        · rw [if_neg hemp] at hl
          exact Option.some_inj.mp hl
      rw [← hleq]
      exact ⟨nodup_computeAllowed cfg s e,
        fun dd => mem_computeAllowed cfg s e dd hday hed⟩

/-- C4 witness: 3rd-Wednesday passage over January 2025. -/
theorem allowedDates_union_amended_witness :
    ((⟨2025, 0, 1⟩ : CalDate).day ≤ 28) ∧ (1 ≤ (⟨2025, 0, 31⟩ : CalDate).day) ∧
    resolvePassage wC4db (some "X") (some "svc") = some wC4cfg ∧
    (availableDates wC4db (some ⟨2025, 0, 1⟩) (some ⟨2025, 0, 31⟩) (some "X")
      (some "svc")).allowedDates = some [⟨2025, 0, 15⟩] ∧
    ([(⟨2025, 0, 15⟩ : CalDate)].Nodup ∧
     ∀ dd : CalDate, (dd ∈ [(⟨2025, 0, 15⟩ : CalDate)] ↔
       (dd ∈ monthPassageDates wC4cfg (dd.year, dd.month) ∧
        CalDate.le ⟨2025, 0, 1⟩ dd ∧ CalDate.le dd ⟨2025, 0, 31⟩))) := by
  refine ⟨by decide, by decide, by decide, by decide, ?_⟩
  exact ((allowedDates_union_amended wC4db ⟨2025, 0, 1⟩ ⟨2025, 0, 31⟩ (some "X")
    (some "svc") (by decide) (by decide)).2 wC4cfg (by decide)).2
    [⟨2025, 0, 15⟩] (by decide)
